import Mathlib

/-!
Verification development for the quant-trading-engine repository.

The Python source is shallowly embedded over exact rationals (`ℚ`):
pandas Series become `List ℚ`, NaN cells become `Option ℚ`, dictionaries
with optional keys become structures with `Option` fields, and functions
that can raise return `Option`.  Floating-point rounding is not modelled;
arithmetic is exact, and the special float values produced by the source
(`inf` from division by zero, `NaN` from `0/0`) are embedded by the
explicit case splits the pandas pipelines realise.
-/

/-- One step of pandas `ewm(..., adjust=False).mean()`:
`a_i = (1-α)·a_{i-1} + α·x_i`, emitting the accumulator first. -/
def ewmFrom (alpha : ℚ) (a : ℚ) : List ℚ → List ℚ
  | [] => [a]
  | x :: xs => a :: ewmFrom alpha ((1 - alpha) * a + alpha * x) xs

/-- pandas `Series.ewm(alpha=α, adjust=False).mean()` on a list:
seeded with the first element, empty input gives empty output. -/
def ewmAlpha (alpha : ℚ) : List ℚ → List ℚ
  | [] => []
  | x :: xs => ewmFrom alpha x xs

/-- `prices.diff().dropna()`: consecutive differences `p[i] − p[i−1]`. -/
def diffs (prices : List ℚ) : List ℚ :=
  (prices.zip prices.tail).map (fun p => p.2 - p.1)

/-- `delta.where(delta > 0, 0)`: the positive deltas, zero elsewhere. -/
def gainsOf (prices : List ℚ) : List ℚ :=
  (diffs prices).map (fun d => if 0 < d then d else 0)

/-- `-delta.where(delta < 0, 0)`: the negated negative deltas, zero elsewhere. -/
def lossesOf (prices : List ℚ) : List ℚ :=
  (diffs prices).map (fun d => if d < 0 then -d else 0)

/-- Wilder smoothing used by both RSI calculators: `ewm(alpha=1/period, adjust=False)`. -/
def wilderSmooth (period : ℕ) (xs : List ℚ) : List ℚ :=
  ewmAlpha (1 / (period : ℚ)) xs

/-- The value `100 − 100/(1+rs)` with `rs = g/l`, under float semantics:
`l = 0, g > 0` gives `rs = inf` hence RSI `100`; `l = 0, g = 0` gives
`rs = NaN`, which `fillna(50)` turns into `50` (src/core/indicators/oscillators.py:48-53). -/
def rsiPoint (g l : ℚ) : ℚ :=
  if l = 0 then (if g = 0 then 50 else 100) else 100 - 100 / (1 + g / l)

/-- `RSICalculator.calculate` of src/core/indicators/oscillators.py:11-59.
`none` is a raised exception: `validate_data` rejects series shorter than the
period, and `alpha = 1.0 / period` divides by zero for `period = 0`.
Cell `none` is a NaN cell (the first output position in the non-flat path). -/
def oscillators_RSICalculator_calculate (period : ℕ) (prices : List ℚ) :
    Option (List (Option ℚ)) :=
  if prices.length < period then none
  else if period = 0 then none
  else
    let avg_gain := wilderSmooth period (gainsOf prices)
    let avg_loss := wilderSmooth period (lossesOf prices)
    if (avg_gain.all fun x => decide (x = 0)) && (avg_loss.all fun x => decide (x = 0)) then
      some (List.replicate prices.length (some 50))
    else
      some (none :: List.zipWith (fun g l => some (rsiPoint g l)) avg_gain avg_loss)

/-- `RSICalculator.calculate` of src/core/indicators.py:20-57 (legacy variant).
No length validation; `avg_loss.replace(0, 0.0001)` guards the division;
`none` result only for the `period = 0` division-by-zero on `alpha`. -/
def indicators_RSICalculator_calculate (period : ℕ) (prices : List ℚ) :
    Option (List (Option ℚ)) :=
  if period = 0 then none
  else
    let avg_gain := wilderSmooth period (gainsOf prices)
    let avg_loss := wilderSmooth period (lossesOf prices)
    match prices with
    | [] => some []
    | _ :: _ =>
      some (none :: List.zipWith
        (fun g l => some (100 - 100 / (1 + g / (if l = 0 then 1 / 10000 else l))))
        avg_gain avg_loss)

/-- pandas `ewm(span=period, adjust=False).mean()`: `α = 2/(period+1)`. -/
def ewmSpan (period : ℕ) (xs : List ℚ) : List ℚ :=
  ewmAlpha (2 / ((period : ℚ) + 1)) xs

/-- `EMACalculator.calculate` of src/core/indicators.py:116-130 (legacy
variant).  The modular variant in src/core/indicators/trend.py:11-26 computes
the same series but first calls `validate_data`, which raises `ValueError`
for series shorter than the calculator's default period (14); that error
path is not modelled here. -/
def EMACalculator_calculate (period : ℕ) (prices : List ℚ) : List ℚ :=
  ewmSpan period prices

/-- Trend direction of `TrendFilter.calculate_trend` (src/core/indicators/trend.py). -/
inductive Direction
  | up | down | sideways | neutral
deriving DecidableEq, Repr

/-- Trend strength of `TrendFilter.calculate_trend` (src/core/indicators/trend.py). -/
inductive Strength
  | strong | weak | neutral
deriving DecidableEq, Repr

/-- The dictionary returned by `TrendFilter.calculate_trend`; the EMA series
entries are omitted (they are the inputs, echoed back), the scalar entries are
kept.  `current_*` are `none` in the insufficient-history branch, which omits
those keys. -/
structure TrendResult where
  direction : Direction
  strength : Strength
  allow_buy : Bool
  allow_sell : Bool
  current_fast : Option ℚ
  current_medium : Option ℚ
  current_slow : Option ℚ
deriving DecidableEq, Repr

/-- The decision core of `TrendFilter.calculate_trend`
(src/core/indicators/trend.py:101-133, identically src/core/indicators.py:205-237),
as a function of the last fast/medium/slow EMA values and the last price. -/
def trendDecision (current_fast current_medium current_slow current_price : ℚ) :
    TrendResult :=
  if current_fast > current_medium ∧ current_medium > current_slow ∧
      current_price > current_fast then
    let strength : Strength :=
      if (current_fast - current_slow) / current_slow > 1 / 500 then .strong else .weak
    { direction := .up, strength := strength, allow_buy := true
      allow_sell := if strength = .strong then false else true
      current_fast := some current_fast, current_medium := some current_medium
      current_slow := some current_slow }
  else if current_fast < current_medium ∧ current_medium < current_slow ∧
      current_price < current_fast then
    let strength : Strength :=
      if (current_slow - current_fast) / current_slow > 1 / 500 then .strong else .weak
    { direction := .down, strength := strength
      allow_buy := if strength = .strong then false else true, allow_sell := true
      current_fast := some current_fast, current_medium := some current_medium
      current_slow := some current_slow }
  else
    { direction := .sideways, strength := .neutral, allow_buy := true
      allow_sell := true
      current_fast := some current_fast, current_medium := some current_medium
      current_slow := some current_slow }

/-- `TrendFilter.calculate_trend` of src/core/indicators.py:166-237 (legacy
variant).  The modular variant in src/core/indicators/trend.py:62-133 has the
same decision logic, but its `EMACalculator.validate_data` raises `ValueError`
for series shorter than 14, an error path this definition does not model.
`none` is the `IndexError` raised by `prices.iloc[-1]` on an empty series;
the `None`-EMA branch (unreachable for nonempty input, since `ewm` of a
nonempty series has a defined last value) returns the neutral record as the
source does. -/
def TrendFilter_calculate_trend (fast_period medium_period slow_period : ℕ)
    (prices : List ℚ) : Option TrendResult :=
  match prices.getLast? with
  | none => none
  | some current_price =>
    match (ewmSpan fast_period prices).getLast?,
        (ewmSpan medium_period prices).getLast?,
        (ewmSpan slow_period prices).getLast? with
    | some f, some m, some s => some (trendDecision f m s current_price)
    | _, _, _ =>
      some { direction := .neutral, strength := .neutral, allow_buy := true
             allow_sell := true, current_fast := none, current_medium := none
             current_slow := none }

/-- `RSISignalGenerator` of src/core/signal_generator.py:8-22: the `__init__`
stores the three levels verbatim; no validation of any kind is performed. -/
structure RSISignalGenerator where
  rsi_oversold : ℚ
  rsi_overbought : ℚ
  rsi_exit_level : ℚ
deriving DecidableEq, Repr

/-- `RSISignalGenerator.__init__` (src/core/signal_generator.py:11-22). -/
def RSISignalGenerator.make (rsi_oversold rsi_overbought rsi_exit_level : ℚ) :
    RSISignalGenerator :=
  { rsi_oversold := rsi_oversold, rsi_overbought := rsi_overbought
    rsi_exit_level := rsi_exit_level }

/-- `RSISignalGenerator.should_enter_buy` (src/core/signal_generator.py:97-107). -/
def RSISignalGenerator.should_enter_buy (g : RSISignalGenerator) (current_rsi : ℚ) : Bool :=
  decide (current_rsi < g.rsi_oversold)

/-- `RSISignalGenerator.should_enter_sell` (src/core/signal_generator.py:109-119). -/
def RSISignalGenerator.should_enter_sell (g : RSISignalGenerator) (current_rsi : ℚ) : Bool :=
  decide (g.rsi_overbought < current_rsi)

/-- `RSISignalGenerator.should_exit_buy` (src/core/signal_generator.py:121-131). -/
def RSISignalGenerator.should_exit_buy (g : RSISignalGenerator) (current_rsi : ℚ) : Bool :=
  decide (g.rsi_exit_level < current_rsi)

/-- `RSISignalGenerator.should_exit_sell` (src/core/signal_generator.py:133-143). -/
def RSISignalGenerator.should_exit_sell (g : RSISignalGenerator) (current_rsi : ℚ) : Bool :=
  decide (current_rsi < g.rsi_exit_level)

/-- Python 3 `round(x)` to an integer: round-half-to-even (banker's rounding). -/
def pyRoundInt (x : ℚ) : ℤ :=
  let n := ⌊x⌋
  let r := x - n
  if r < 1 / 2 then n
  else if 1 / 2 < r then n + 1
  else if Even n then n else n + 1

/-- Python 3 `round(x, 2)`: round-half-to-even at two decimal places. -/
def pyRound2 (x : ℚ) : ℚ :=
  (pyRoundInt (100 * x) : ℚ) / 100

/-- `RiskManager.calculate_position_size` of src/core/risk_manager.py:23-60.
The first argument is the instance's `default_risk_per_trade`; a `none` risk
argument selects it.  A `none` stop distance is Python `None`. -/
def RiskManager_calculate_position_size (self_default_risk_per_trade : ℚ)
    (balance : ℚ) (default_risk_per_trade : Option ℚ) (stop_distance : Option ℚ)
    (contract_size : ℚ) (min_lot max_lot : ℚ) : ℚ :=
  let risk := default_risk_per_trade.getD self_default_risk_per_trade
  match stop_distance with
  | none => min (1 / 10) max_lot
  | some d =>
    if d ≤ 0 then min (1 / 10) max_lot
    else
      let risk_amount := balance * (risk / 100)
      let position_size := risk_amount / (d * contract_size)
      pyRound2 (max min_lot (min position_size max_lot))

/-- Python's `needle in haystack` substring test on strings. -/
def strContains (haystack needle : String) : Bool :=
  haystack.toList.tails.any (fun t => needle.toList.isPrefixOf t)

/-- The slice of `mt5.symbol_info(symbol)` the risk manager reads. -/
structure SymbolInfo where
  trade_contract_size : ℚ
deriving DecidableEq, Repr

/-- The slice of an `mt5` position record the portfolio-risk scan reads. -/
structure Mt5Position where
  magic : ℤ
  price_open : ℚ
  sl : ℚ
  volume : ℚ
  symbol : String
deriving DecidableEq, Repr

/-- The MetaTrader 5 terminal as the pure environment the risk manager
queries: `account_info().balance`, `positions_get()` and `symbol_info(s)`,
each `none` when the call fails. -/
structure Mt5Env where
  account_balance : Option ℚ
  positions : Option (List Mt5Position)
  symbol_info : String → Option SymbolInfo

/-- `RiskManager.get_account_balance` (src/core/risk_manager.py:222-228). -/
def RiskManager_get_account_balance (env : Mt5Env) : Option ℚ :=
  env.account_balance

/-- `RiskManager.get_pip_value` (src/core/risk_manager.py:230-245): `none` when
`symbol_info` fails, else 0.01 for JPY pairs and gold, 0.0001 otherwise. -/
def RiskManager_get_pip_value (env : Mt5Env) (symbol : String) : Option ℚ :=
  match env.symbol_info symbol with
  | none => none
  | some _ =>
    if strContains symbol "JPY" then some (1 / 100)
    else if strContains symbol "XAU" || strContains symbol.toUpper "GOLD" then
      some (1 / 100)
    else some (1 / 10000)

/-- Risk contribution of one open position in
`RiskManager.calculate_current_portfolio_risk` (src/core/risk_manager.py:374-408):
positions with a foreign magic number, no stop, unknown symbol or unknown pip
value contribute nothing. -/
def positionRisk (env : Mt5Env) (pos : Mt5Position) : ℚ :=
  if pos.magic ≠ 12345 then 0
  else if pos.sl ≤ 0 then 0
  else
    match env.symbol_info pos.symbol, RiskManager_get_pip_value env pos.symbol with
    | some info, some pip_value =>
      let stop_distance := |pos.price_open - pos.sl|
      let stop_distance_pips := stop_distance / pip_value
      stop_distance_pips * pip_value * info.trade_contract_size * pos.volume
    | _, _ => 0

/-- `RiskManager.calculate_current_portfolio_risk` (src/core/risk_manager.py:352-413),
returning `(current_risk_amount, current_risk_percent)`; the per-position
detail list is dropped.  Balance or position query failure yields `(0, 0)`. -/
def RiskManager_calculate_current_portfolio_risk (env : Mt5Env) : ℚ × ℚ :=
  match RiskManager_get_account_balance env with
  | none => (0, 0)
  | some balance =>
    match env.positions with
    | none => (0, 0)
    | some positions =>
      let total_risk_amount := (positions.map (positionRisk env)).sum
      let current_risk_percent :=
        if 0 < balance then total_risk_amount / balance * 100 else 0
      (total_risk_amount, current_risk_percent)

/-- The tuple `(can_open, current_risk_percent, new_position_risk_percent, reason)`
returned by `RiskManager.can_open_new_position`. -/
structure CanOpenResult where
  can_open : Bool
  current_risk_percent : ℚ
  new_position_risk_percent : ℚ
  reason : String
deriving DecidableEq, Repr

/-- `RiskManager.can_open_new_position` of src/core/risk_manager.py:415-458.
The reason strings keep the source's fixed prefixes; the interpolated
percentages of the rejection message are not re-rendered as text. -/
def RiskManager_can_open_new_position (env : Mt5Env) (symbol : String)
    (entry_price stop_loss position_size max_total_portfolio_risk : ℚ) :
    CanOpenResult :=
  let current := RiskManager_calculate_current_portfolio_risk env
  let current_risk_percent := current.2
  match RiskManager_get_account_balance env with
  | none =>
    { can_open := false, current_risk_percent := 0
      new_position_risk_percent := 0, reason := "Could not get account balance" }
  | some balance =>
    let stop_distance := |entry_price - stop_loss|
    match RiskManager_get_pip_value env symbol, env.symbol_info symbol with
    | some pip_value, some symbol_info =>
      let contract_size := symbol_info.trade_contract_size
      let stop_distance_pips := stop_distance / pip_value
      let new_position_risk :=
        stop_distance_pips * pip_value * contract_size * position_size
      let new_position_risk_percent := new_position_risk / balance * 100
      let total_risk_after := current_risk_percent + new_position_risk_percent
      if total_risk_after > max_total_portfolio_risk then
        { can_open := false, current_risk_percent := current_risk_percent
          new_position_risk_percent := new_position_risk_percent
          reason := "Portfolio risk limit exceeded" }
      else
        { can_open := true, current_risk_percent := current_risk_percent
          new_position_risk_percent := new_position_risk_percent
          reason := "Within risk limits" }
    | _, _ =>
      { can_open := false, current_risk_percent := current_risk_percent
        new_position_risk_percent := 0
        reason := "Could not get symbol information" }

/-- Position side: the `'BUY'`/`'SELL'` strings of the tracking dictionaries. -/
inductive Side
  | BUY | SELL
deriving DecidableEq, Repr

/-- The reason tag of `TrailingStopManager.update_stop_loss`; the source's
f-strings are abstracted to their leading keyword. -/
inductive StopReason
  | BREAKEVEN | TRAILING | UNCHANGED
deriving DecidableEq, Repr

/-- One entry of the `stop_adjustments` history
(src/core/trailing_stop_manager.py:145-159). -/
structure StopAdjustment where
  old_stop : Option ℚ
  new_stop : ℚ
  reason : StopReason
  highest_price : Option ℚ
  lowest_price : Option ℚ
deriving DecidableEq, Repr

/-- The position dictionary as the trailing stop manager reads it: `type` and
`entry` are always present, every tracking key is optional (`position.get`),
matching the `.get(...)` accesses of src/core/trailing_stop_manager.py. -/
structure TrackedPosition where
  type : Side
  entry : ℚ
  highest_price : Option ℚ
  lowest_price : Option ℚ
  breakeven_triggered : Option Bool
  initial_stop : Option ℚ
  stop_loss : Option ℚ
  stop_adjustments : Option (List StopAdjustment)
deriving DecidableEq, Repr

/-- The `TrailingStopManager` configuration
(src/core/trailing_stop_manager.py:17-28). -/
structure TrailingStopManager where
  breakeven_trigger : ℚ
  trail_distance : ℚ
  hard_stop_distance : ℚ
deriving DecidableEq, Repr

namespace TrailingStopManager

/-- `TrailingStopManager._calculate_initial_stop`
(src/core/trailing_stop_manager.py:89-94). -/
def calculate_initial_stop (self : TrailingStopManager) (position : TrackedPosition)
    (atr : ℚ) : ℚ :=
  if position.type = Side.BUY then position.entry - self.hard_stop_distance * atr
  else position.entry + self.hard_stop_distance * atr

/-- `TrailingStopManager.initialize_position_tracking`
(src/core/trailing_stop_manager.py:31-50). -/
def initialize_position_tracking (self : TrailingStopManager)
    (position : TrackedPosition) (current_price atr : ℚ) : TrackedPosition :=
  let p1 :=
    { position with
      highest_price :=
        some (if position.type = Side.BUY then current_price else position.entry)
      lowest_price :=
        some (if position.type = Side.SELL then current_price else position.entry)
      breakeven_triggered := some false }
  let initial := calculate_initial_stop self p1 atr
  { p1 with
    initial_stop := some initial
    stop_loss := some initial
    stop_adjustments := some [] }

/-- `TrailingStopManager._update_price_tracking`
(src/core/trailing_stop_manager.py:96-101). -/
def update_price_tracking (position : TrackedPosition) (current_price : ℚ) :
    TrackedPosition :=
  if position.type = Side.BUY then
    { position with
      highest_price := some (max (position.highest_price.getD current_price) current_price) }
  else
    { position with
      lowest_price := some (min (position.lowest_price.getD current_price) current_price) }

/-- `TrailingStopManager._should_move_to_breakeven`
(src/core/trailing_stop_manager.py:103-107). -/
def should_move_to_breakeven (self : TrailingStopManager) (position : TrackedPosition)
    (current_price atr : ℚ) : Bool :=
  decide (self.breakeven_trigger * atr ≤ |current_price - position.entry|)

/-- `TrailingStopManager._calculate_breakeven_stop`
(src/core/trailing_stop_manager.py:109-116): entry ± 0.1·ATR spread buffer. -/
def calculate_breakeven_stop (self : TrailingStopManager) (position : TrackedPosition)
    (atr : ℚ) : ℚ :=
  let spread_buffer := 1 / 10 * atr
  if position.type = Side.BUY then position.entry + spread_buffer
  else position.entry - spread_buffer

/-- `TrailingStopManager._is_profitable`
(src/core/trailing_stop_manager.py:118-123). -/
def is_profitable (position : TrackedPosition) (current_price : ℚ) : Bool :=
  if position.type = Side.BUY then decide (position.entry < current_price)
  else decide (current_price < position.entry)

/-- `TrailingStopManager._calculate_trailing_stop`
(src/core/trailing_stop_manager.py:125-132). -/
def calculate_trailing_stop (self : TrailingStopManager) (position : TrackedPosition)
    (current_price atr : ℚ) : ℚ :=
  if position.type = Side.BUY then
    position.highest_price.getD current_price - self.trail_distance * atr
  else
    position.lowest_price.getD current_price + self.trail_distance * atr

/-- `TrailingStopManager._is_better_stop`
(src/core/trailing_stop_manager.py:134-143). -/
def is_better_stop (position : TrackedPosition) (new_stop : ℚ) : Bool :=
  match position.stop_loss with
  | none => true
  | some current_stop =>
    if position.type = Side.BUY then decide (current_stop < new_stop)
    else decide (new_stop < current_stop)

/-- `TrailingStopManager._log_stop_adjustment`
(src/core/trailing_stop_manager.py:145-159). -/
def log_stop_adjustment (position : TrackedPosition) (new_stop : ℚ)
    (reason : StopReason) : TrackedPosition :=
  { position with
    stop_adjustments :=
      some (position.stop_adjustments.getD [] ++
        [{ old_stop := position.stop_loss, new_stop := new_stop, reason := reason
           highest_price := position.highest_price
           lowest_price := position.lowest_price }]) }

/-- `TrailingStopManager.update_stop_loss` of
src/core/trailing_stop_manager.py:52-87, returning the (possibly mutated)
position dictionary together with the `(new_stop_loss, reason)` pair.  The
stage-3 return value `position.get('stop_loss', position.get('initial_stop'))`
may be `None` on an untracked dictionary, hence `Option ℚ`. -/
def update_stop_loss (self : TrailingStopManager) (position : TrackedPosition)
    (current_price atr : ℚ) : TrackedPosition × Option ℚ × StopReason :=
  let p1 := update_price_tracking position current_price
  if !(p1.breakeven_triggered.getD false) &&
      should_move_to_breakeven self p1 current_price atr then
    let new_stop := calculate_breakeven_stop self p1 atr
    let p2 := { p1 with breakeven_triggered := some true }
    let p3 := log_stop_adjustment p2 new_stop StopReason.BREAKEVEN
    (p3, some new_stop, StopReason.BREAKEVEN)
  else
    let new_stop := calculate_trailing_stop self p1 current_price atr
    if p1.breakeven_triggered.getD false && is_profitable p1 current_price &&
        is_better_stop p1 new_stop then
      let p3 := log_stop_adjustment p1 new_stop StopReason.TRAILING
      (p3, some new_stop, StopReason.TRAILING)
    else
      (p1, (match p1.stop_loss with
            | some v => some v
            | none => p1.initial_stop), StopReason.UNCHANGED)

end TrailingStopManager

/-- One tick under the caller contract of claims C1/C2: call
`update_stop_loss` and store the returned stop back into the tracked
record's `stop_loss` field before the next call. -/
def tsmStep (self : TrailingStopManager) (position : TrackedPosition)
    (c : ℚ × ℚ) : TrackedPosition :=
  let r := TrailingStopManager.update_stop_loss self position c.1 c.2
  { r.1 with stop_loss := r.2.1 }

/-- The stored `stop_loss` values along a sequence of store-back ticks,
starting from (and including) the given state. -/
def stopTrace (self : TrailingStopManager) (position : TrackedPosition)
    (inputs : List (ℚ × ℚ)) : List (Option ℚ) :=
  (inputs.scanl (tsmStep self) position).map (fun p => p.stop_loss)

/-- Both cells defined and related by `R`: the consecutive-step relation used
to state stop monotonicity over a trace of optional stops. -/
def stepRel (R : ℚ → ℚ → Prop) (a b : Option ℚ) : Prop :=
  ∃ x y, a = some x ∧ b = some y ∧ R x y

/-- `update_position_tracking` of src/live_rsi_trader.py:586-611, for a single
ticket: the tracking-dictionary lookup becomes an `Option TrackedPosition`, and
the broker call chain `update_mt5_stop_loss` (src/live_rsi_trader.py:613-667,
`None` on rejection or error, the validated stop on success) becomes the
function argument `modify_stop_loss`.  Returns the new tracking record (if
any) and the value the source returns. -/
def update_position_tracking (self : TrailingStopManager)
    (tracked : Option TrackedPosition) (current_price current_atr : ℚ)
    (modify_stop_loss : ℚ → Option ℚ) : Option TrackedPosition × Option ℚ :=
  match tracked with
  | none => (none, none)
  | some tracked_position =>
    let r := TrailingStopManager.update_stop_loss self tracked_position
      current_price current_atr
    if r.2.2 = StopReason.UNCHANGED then
      (some r.1, r.1.stop_loss)
    else
      let advanced := { r.1 with stop_loss := r.2.1 }
      (some advanced, r.2.1.bind modify_stop_loss)

/-- `TrailingStopStrategy.option_a_pure_trailing`
(src/core/trailing_stop_manager.py:179-186). -/
def TrailingStopStrategy.option_a_pure_trailing : TrailingStopManager :=
  { breakeven_trigger := 3 / 2, trail_distance := 1, hard_stop_distance := 2 }

/-- The position dictionary of the spec's end-to-end scenario before tracking
fields are added: a BUY at entry 1.2500 (cf. src/live_rsi_trader.py:551-557). -/
def scenarioPosition : TrackedPosition :=
  { type := Side.BUY, entry := 5 / 4, highest_price := none, lowest_price := none
    breakeven_triggered := none, initial_stop := none, stop_loss := none
    stop_adjustments := none }

/-- The scenario position after `initialize_position_tracking` at price 1.2500
with ATR 0.0010. -/
def scenarioTracked : TrackedPosition :=
  TrailingStopManager.initialize_position_tracking
    TrailingStopStrategy.option_a_pure_trailing scenarioPosition (5 / 4) (1 / 1000)

/-- The scenario position after the update at price 1.2520 (ATR 0.0010), with
the returned stop stored back. -/
def scenarioAfterBreakeven : TrackedPosition :=
  tsmStep TrailingStopStrategy.option_a_pure_trailing scenarioTracked
    (1252 / 1000, 1 / 1000)

/-- The scenario position after the further update at price 1.2540, with the
returned stop stored back. -/
def scenarioAfterTrailing : TrackedPosition :=
  tsmStep TrailingStopStrategy.option_a_pure_trailing scenarioAfterBreakeven
    (1254 / 1000, 1 / 1000)

/-- The profit-favorable ordering on stored stops for each side: for BUY a
later stop must not be lower, for SELL not higher. -/
def favorableRel : Side → (ℚ → ℚ → Prop)
  | Side.BUY => fun a b => a ≤ b
  | Side.SELL => fun a b => b ≤ a

/-- A concrete healthy MT5 environment: balance 10000, no open positions,
symbol metadata known for EURUSD only (contract size 100000). -/
def sampleEnv : Mt5Env :=
  { account_balance := some 10000
    positions := some []
    symbol_info := fun s => if s = "EURUSD" then some ⟨100000⟩ else none }


/-- Constructor discrimination for `StopReason`, in rewrite form. -/
theorem stopReason_trailing_ne_unchanged :
    (StopReason.TRAILING = StopReason.UNCHANGED) = False :=
  eq_false (fun h => StopReason.noConfusion h)

/-- Constructor discrimination for `StopReason`, in rewrite form. -/
theorem stopReason_breakeven_ne_unchanged :
    (StopReason.BREAKEVEN = StopReason.UNCHANGED) = False :=
  eq_false (fun h => StopReason.noConfusion h)

/-- C2: with the (1.5, 1.0, 2.0)-ATR configuration, a BUY at entry 1.2500
initialized at price 1.2500 with ATR 0.0010 gets initial stop 1.2480; the
update at 1.2520 returns 1.2501 with reason BREAKEVEN and sets
`breakeven_triggered`; after store-back, the update at 1.2540 returns 1.2530
with reason TRAILING; after store-back, the update at 1.2535 returns 1.2530
with reason UNCHANGED. -/
theorem scenario_end_to_end :
    scenarioTracked.stop_loss = some (1248 / 1000) ∧
    scenarioTracked.initial_stop = some (1248 / 1000) ∧
    (TrailingStopManager.update_stop_loss TrailingStopStrategy.option_a_pure_trailing
        scenarioTracked (1252 / 1000) (1 / 1000)).2 =
      (some (12501 / 10000), StopReason.BREAKEVEN) ∧
    scenarioAfterBreakeven.breakeven_triggered = some true ∧
    scenarioAfterBreakeven.stop_loss = some (12501 / 10000) ∧
    (TrailingStopManager.update_stop_loss TrailingStopStrategy.option_a_pure_trailing
        scenarioAfterBreakeven (1254 / 1000) (1 / 1000)).2 =
      (some (1253 / 1000), StopReason.TRAILING) ∧
    (TrailingStopManager.update_stop_loss TrailingStopStrategy.option_a_pure_trailing
        scenarioAfterTrailing (12535 / 10000) (1 / 1000)).2 =
      (some (1253 / 1000), StopReason.UNCHANGED) := by
  norm_num [scenarioTracked, scenarioPosition, scenarioAfterBreakeven, scenarioAfterTrailing,
    TrailingStopManager.initialize_position_tracking, TrailingStopManager.calculate_initial_stop,
    TrailingStopStrategy.option_a_pure_trailing, tsmStep,
    TrailingStopManager.update_stop_loss, TrailingStopManager.update_price_tracking,
    TrailingStopManager.should_move_to_breakeven, TrailingStopManager.calculate_breakeven_stop,
    TrailingStopManager.is_profitable, TrailingStopManager.is_better_stop,
    TrailingStopManager.calculate_trailing_stop, TrailingStopManager.log_stop_adjustment,
    max_def, min_def, abs]

/-- C5: on a tick whose trailing-stop update yields a changed stop, the
live-trader tick handler writes the new stop into the shadow record *before*
attempting the broker modify, so when the broker modify fails (returns
`none`) the stored `stop_loss` is nevertheless advanced from 1.2501 to
1.2530 — it is not left un-advanced for a retry. -/
theorem shadow_stop_advanced_despite_failed_modify :
    (update_position_tracking TrailingStopStrategy.option_a_pure_trailing
        (some scenarioAfterBreakeven) (1254 / 1000) (1 / 1000) (fun _ => none)).2 = none ∧
    scenarioAfterBreakeven.stop_loss = some (12501 / 10000) ∧
    ((update_position_tracking TrailingStopStrategy.option_a_pure_trailing
        (some scenarioAfterBreakeven) (1254 / 1000) (1 / 1000) (fun _ => none)).1.map
      (fun p => p.stop_loss)) = some (some (1253 / 1000)) := by
  norm_num [update_position_tracking, stopReason_trailing_ne_unchanged,
    stopReason_breakeven_ne_unchanged, scenarioTracked, scenarioPosition, scenarioAfterBreakeven, scenarioAfterTrailing,
    TrailingStopManager.initialize_position_tracking, TrailingStopManager.calculate_initial_stop,
    TrailingStopStrategy.option_a_pure_trailing, tsmStep,
    TrailingStopManager.update_stop_loss, TrailingStopManager.update_price_tracking,
    TrailingStopManager.should_move_to_breakeven, TrailingStopManager.calculate_breakeven_stop,
    TrailingStopManager.is_profitable, TrailingStopManager.is_better_stop,
    TrailingStopManager.calculate_trailing_stop, TrailingStopManager.log_stop_adjustment,
    max_def, min_def, abs]

/-- C8 (counterexample): constructing the RSI signal generator with
oversold = 70 ≥ overbought = 30 does not fail: it produces a generator that
stores the inverted levels and whose signal predicates operate on them. -/
theorem signal_generator_accepts_inverted_levels :
    (RSISignalGenerator.make 70 30 50).rsi_oversold = 70 ∧
    (RSISignalGenerator.make 70 30 50).rsi_overbought = 30 ∧
    (RSISignalGenerator.make 70 30 50).should_enter_buy 60 = true ∧
    (RSISignalGenerator.make 70 30 50).should_enter_sell 40 = true := by
  norm_num [RSISignalGenerator.make, RSISignalGenerator.should_enter_buy,
    RSISignalGenerator.should_enter_sell]

/-- C8 (amended): construction performs no validation of the level ordering —
for every triple of levels, including oversold ≥ overbought, construction
succeeds, stores the levels verbatim, and yields a generator whose entry
predicates compare against the given levels as-is. -/
theorem signal_generator_no_level_validation :
    ∀ (rsi_oversold rsi_overbought rsi_exit_level current_rsi : ℚ),
    (RSISignalGenerator.make rsi_oversold rsi_overbought rsi_exit_level).rsi_oversold
        = rsi_oversold ∧
    (RSISignalGenerator.make rsi_oversold rsi_overbought rsi_exit_level).rsi_overbought
        = rsi_overbought ∧
    (RSISignalGenerator.make rsi_oversold rsi_overbought rsi_exit_level).rsi_exit_level
        = rsi_exit_level ∧
    (RSISignalGenerator.make rsi_oversold rsi_overbought rsi_exit_level).should_enter_buy
        current_rsi = decide (current_rsi < rsi_oversold) ∧
    (RSISignalGenerator.make rsi_oversold rsi_overbought rsi_exit_level).should_enter_sell
        current_rsi = decide (rsi_overbought < current_rsi) := by
  intro a b c r
  exact ⟨rfl, rfl, rfl, rfl, rfl⟩

/-- C4 (counterexample): the conservative fallback `min(0.1, max_lot)` is not
clamped to `min_lot` — with `min_lot = 0.5` it returns 0.1, outside
`[min_lot, max_lot]`; and the final `round(, 2)` can round the clamped size
below `min_lot` — with `min_lot = 0.025` a tiny computed size clamps to 0.025
and rounds (half-to-even) to 0.02. -/
theorem position_size_outside_lot_range :
    RiskManager_calculate_position_size 2 1000 none none 100000 (1 / 2) 100 = 1 / 10 ∧
    RiskManager_calculate_position_size 2 1000 none none 100000 (1 / 2) 100 < 1 / 2 ∧
    RiskManager_calculate_position_size 2 1000 (some 2) (some 1000000) 100000
        (1 / 40) 100 < 1 / 40 := by
  norm_num [RiskManager_calculate_position_size, pyRound2, pyRoundInt, max_def, min_def]

/-- C10 (counterexample): on the single-element series `[1]` with period 1
(length ≥ period, and no index after the first, so the positive-average-loss
hypothesis is vacuous), the modular calculator returns `[50.0]` via its
flat-series branch while the legacy calculator returns `[NaN]`. -/
theorem rsi_variants_differ_on_singleton :
    oscillators_RSICalculator_calculate 1 [1] = some [some 50] ∧
    indicators_RSICalculator_calculate 1 [1] = some [none] ∧
    oscillators_RSICalculator_calculate 1 [1] ≠ indicators_RSICalculator_calculate 1 [1] := by
  refine ⟨by norm_num [oscillators_RSICalculator_calculate, wilderSmooth, ewmAlpha,
    gainsOf, lossesOf, diffs, rsiPoint], by norm_num [indicators_RSICalculator_calculate,
    wilderSmooth, ewmAlpha, gainsOf, lossesOf, diffs], ?_⟩
  intro h
  rw [show oscillators_RSICalculator_calculate 1 [1] = some [some 50] by
        norm_num [oscillators_RSICalculator_calculate, wilderSmooth, ewmAlpha, gainsOf,
          lossesOf, diffs, rsiPoint],
      show indicators_RSICalculator_calculate 1 [1] = some [none] by
        norm_num [indicators_RSICalculator_calculate, wilderSmooth, ewmAlpha, gainsOf,
          lossesOf, diffs]] at h
  simp at h

/-- `_update_price_tracking` touches only the peak/trough field of its own
side: every other field, and the opposite side's extreme, is unchanged. -/
theorem update_price_tracking_frame (p : TrackedPosition) (cp : ℚ) :
    (TrailingStopManager.update_price_tracking p cp).stop_loss = p.stop_loss ∧
    (TrailingStopManager.update_price_tracking p cp).initial_stop = p.initial_stop ∧
    (TrailingStopManager.update_price_tracking p cp).type = p.type ∧
    (TrailingStopManager.update_price_tracking p cp).entry = p.entry ∧
    (TrailingStopManager.update_price_tracking p cp).breakeven_triggered
        = p.breakeven_triggered ∧
    (TrailingStopManager.update_price_tracking p cp).stop_adjustments
        = p.stop_adjustments ∧
    (p.type = Side.BUY →
      (TrailingStopManager.update_price_tracking p cp).lowest_price = p.lowest_price) ∧
    (p.type = Side.SELL →
      (TrailingStopManager.update_price_tracking p cp).highest_price = p.highest_price) := by
  unfold TrailingStopManager.update_price_tracking
  split <;> simp_all

/-- C9: `update_stop_loss` never writes the position's `stop_loss` or
`initial_stop` (nor its side or entry); for a BUY position it leaves
`lowest_price` alone and for a SELL position `highest_price` — adopting the
returned stop into `stop_loss` is entirely the caller's move. -/
theorem update_stop_loss_frame (self : TrailingStopManager) (p : TrackedPosition)
    (current_price atr : ℚ) :
    ((TrailingStopManager.update_stop_loss self p current_price atr).1.stop_loss
        = p.stop_loss) ∧
    ((TrailingStopManager.update_stop_loss self p current_price atr).1.initial_stop
        = p.initial_stop) ∧
    ((TrailingStopManager.update_stop_loss self p current_price atr).1.type = p.type) ∧
    ((TrailingStopManager.update_stop_loss self p current_price atr).1.entry = p.entry) ∧
    (p.type = Side.BUY →
      (TrailingStopManager.update_stop_loss self p current_price atr).1.lowest_price
        = p.lowest_price) ∧
    (p.type = Side.SELL →
      (TrailingStopManager.update_stop_loss self p current_price atr).1.highest_price
        = p.highest_price) := by
  obtain ⟨h1, h2, h3, h4, h5, h6, h7, h8⟩ := update_price_tracking_frame p current_price
  unfold TrailingStopManager.update_stop_loss
  dsimp only
  split
  · exact ⟨by simp [TrailingStopManager.log_stop_adjustment, h1],
      by simp [TrailingStopManager.log_stop_adjustment, h2],
      by simp [TrailingStopManager.log_stop_adjustment, h3],
      by simp [TrailingStopManager.log_stop_adjustment, h4], h7, h8⟩
  · split
    · exact ⟨by simp [TrailingStopManager.log_stop_adjustment, h1],
        by simp [TrailingStopManager.log_stop_adjustment, h2],
        by simp [TrailingStopManager.log_stop_adjustment, h3],
        by simp [TrailingStopManager.log_stop_adjustment, h4], h7, h8⟩
    · exact ⟨h1, h2, h3, h4, h7, h8⟩

/-- Witness for C9 at the scenario's tracked BUY position and breakeven tick. -/
theorem update_stop_loss_frame_witness :
    ((TrailingStopManager.update_stop_loss TrailingStopStrategy.option_a_pure_trailing
        scenarioTracked (1252 / 1000) (1 / 1000)).1.stop_loss = scenarioTracked.stop_loss) ∧
    ((TrailingStopManager.update_stop_loss TrailingStopStrategy.option_a_pure_trailing
        scenarioTracked (1252 / 1000) (1 / 1000)).1.lowest_price
      = scenarioTracked.lowest_price) :=
  ⟨(update_stop_loss_frame TrailingStopStrategy.option_a_pure_trailing scenarioTracked
      (1252 / 1000) (1 / 1000)).1,
   (update_stop_loss_frame TrailingStopStrategy.option_a_pure_trailing scenarioTracked
      (1252 / 1000) (1 / 1000)).2.2.2.2.1 rfl⟩

/-- C7: whenever the last fast/medium/slow EMA values are defined, the trend
decision follows the table: fast > medium > slow with price above fast gives
an up-trend, strong exactly when (F−S)/S > 0.002 and weak otherwise, BUYs
allowed, SELLs blocked exactly when strong; and when neither the up- nor the
mirrored down-condition holds the result is sideways/neutral with both
directions allowed. -/
theorem trend_filter_decision_table
    (fast_period medium_period slow_period : ℕ) (prices : List ℚ) (r : TrendResult)
    (P F M S : ℚ)
    (hr : TrendFilter_calculate_trend fast_period medium_period slow_period prices
      = some r)
    (hP : prices.getLast? = some P)
    (hF : (ewmSpan fast_period prices).getLast? = some F)
    (hM : (ewmSpan medium_period prices).getLast? = some M)
    (hS : (ewmSpan slow_period prices).getLast? = some S) :
    ((F > M ∧ M > S ∧ P > F) →
      r.direction = Direction.up ∧
      (r.strength = Strength.strong ↔ (F - S) / S > 1 / 500) ∧
      (¬((F - S) / S > 1 / 500) → r.strength = Strength.weak) ∧
      r.allow_buy = true ∧
      (r.allow_sell = false ↔ r.strength = Strength.strong)) ∧
    ((¬(F > M ∧ M > S ∧ P > F) ∧ ¬(F < M ∧ M < S ∧ P < F)) →
      r.direction = Direction.sideways ∧ r.strength = Strength.neutral ∧
      r.allow_buy = true ∧ r.allow_sell = true) := by
  unfold TrendFilter_calculate_trend at hr
  rw [hP, hF, hM, hS] at hr
  obtain rfl : trendDecision F M S P = r := Option.some.inj hr
  constructor
  · intro hup
    unfold trendDecision
    rw [if_pos hup]
    by_cases hst : (F - S) / S > 1 / 500
    · simp [hst]
    · simp [hst]
  · intro ⟨hn1, hn2⟩
    unfold trendDecision
    rw [if_neg hn1, if_neg hn2]
    simp

/-- Witness for C7: a rising series where fast(2) > medium(4) > slow(8) EMA
and the last price exceeds the fast EMA, with relative spread above 0.002. -/
theorem trend_filter_decision_table_witness :
    ∃ r, TrendFilter_calculate_trend 2 4 8 [1, 2, 4] = some r ∧
      r.direction = Direction.up ∧ r.strength = Strength.strong ∧
      r.allow_buy = true ∧ r.allow_sell = false := by
  have hP : ([1, 2, 4] : List ℚ).getLast? = some 4 := rfl
  have hF : (ewmSpan 2 [1, 2, 4]).getLast? = some (29 / 9) := by
    norm_num [ewmSpan, ewmAlpha, ewmFrom]
  have hM : (ewmSpan 4 [1, 2, 4]).getLast? = some (61 / 25) := by
    norm_num [ewmSpan, ewmAlpha, ewmFrom]
  have hS : (ewmSpan 8 [1, 2, 4]).getLast? = some (149 / 81) := by
    norm_num [ewmSpan, ewmAlpha, ewmFrom]
  have hr : TrendFilter_calculate_trend 2 4 8 [1, 2, 4]
      = some (trendDecision (29 / 9) (61 / 25) (149 / 81) 4) := by
    unfold TrendFilter_calculate_trend
    rw [hP, hF, hM, hS]
  have h := (trend_filter_decision_table 2 4 8 [1, 2, 4] _ 4 (29 / 9) (61 / 25)
      (149 / 81) hr hP hF hM hS).1 (by norm_num)
  exact ⟨_, hr, h.1, h.2.1.mpr (by norm_num), h.2.2.2.1,
    h.2.2.2.2.mpr (h.2.1.mpr (by norm_num))⟩

/-- A BREAKEVEN-reason update marks the position `breakeven_triggered`, stores
a defined stop, and keeps its side. -/
theorem tsmStep_breakeven_state (self : TrailingStopManager) (p : TrackedPosition)
    (cp atr : ℚ)
    (h : (TrailingStopManager.update_stop_loss self p cp atr).2.2
      = StopReason.BREAKEVEN) :
    (tsmStep self p (cp, atr)).breakeven_triggered = some true ∧
    (tsmStep self p (cp, atr)).stop_loss.isSome ∧
    (tsmStep self p (cp, atr)).type = p.type := by
  obtain ⟨h1, h2, h3, h4, h5, h6, h7, h8⟩ := update_price_tracking_frame p cp
  unfold TrailingStopManager.update_stop_loss at h
  dsimp only at h
  unfold tsmStep TrailingStopManager.update_stop_loss
  dsimp only
  split at h
  · next hc =>
    rw [if_pos hc]
    simp [TrailingStopManager.log_stop_adjustment, h3]
  · split at h
    · exact absurd h (by simp)
    · exact absurd h (by simp)

/-- After breakeven has triggered, one store-back tick keeps the trigger and
the side, keeps the stop defined, and moves the stored stop only in the
profit-favorable direction for the position's side. -/
theorem tsmStep_monotone (self : TrailingStopManager) (s : TrackedPosition)
    (c : ℚ × ℚ) (hb : s.breakeven_triggered = some true) (hs : s.stop_loss.isSome) :
    (tsmStep self s c).breakeven_triggered = some true ∧
    (tsmStep self s c).type = s.type ∧
    (tsmStep self s c).stop_loss.isSome ∧
    stepRel (favorableRel s.type) s.stop_loss (tsmStep self s c).stop_loss := by
  obtain ⟨x, hx⟩ := Option.isSome_iff_exists.mp hs
  obtain ⟨h1, h2, h3, h4, h5, h6, h7, h8⟩ := update_price_tracking_frame s c.1
  unfold tsmStep TrailingStopManager.update_stop_loss
  dsimp only
  rw [h5, hb]
  simp only [Option.getD_some, Bool.not_true, Bool.false_and, Bool.false_eq_true,
    if_false, Bool.true_and]
  split
  · next hc =>
    rw [Bool.and_eq_true] at hc
    have hbetter := hc.2
    unfold TrailingStopManager.is_better_stop at hbetter
    rw [h1, hx] at hbetter
    refine ⟨by simp [TrailingStopManager.log_stop_adjustment, h5, hb],
      by simp [TrailingStopManager.log_stop_adjustment, h3],
      by simp [TrailingStopManager.log_stop_adjustment], ?_⟩
    rw [hx]
    refine ⟨x, TrailingStopManager.calculate_trailing_stop self
        (TrailingStopManager.update_price_tracking s c.1) c.1 c.2, rfl,
      by simp [TrailingStopManager.log_stop_adjustment], ?_⟩
    rw [h3] at hbetter
    cases hty : s.type
    · rw [hty] at hbetter
      simp at hbetter
      exact le_of_lt hbetter
    · rw [hty] at hbetter
      simp at hbetter
      exact le_of_lt hbetter
  · rw [h1, hx]
    refine ⟨by simp [h5, hb], by simp [h3], by simp, ?_⟩
    refine ⟨x, x, rfl, by simp, ?_⟩
    cases s.type <;> simp [favorableRel]

/-- The first cell of a stop trace is the starting state's stored stop. -/
theorem stopTrace_head (self : TrailingStopManager) (s : TrackedPosition)
    (l : List (ℚ × ℚ)) : (stopTrace self s l).head? = some s.stop_loss := by
  cases l <;> simp [stopTrace, List.scanl]

/-- Unfolding a stop trace by one tick. -/
theorem stopTrace_cons (self : TrailingStopManager) (s : TrackedPosition)
    (c : ℚ × ℚ) (cs : List (ℚ × ℚ)) :
    stopTrace self s (c :: cs) = s.stop_loss :: stopTrace self (tsmStep self s c) cs := by
  simp [stopTrace, List.scanl]

/-- From any breakeven-triggered state of side `t`, the stored stops along any
sequence of store-back ticks form a `favorableRel t`-chain. -/
theorem stopTrace_chain (self : TrailingStopManager) (t : Side) :
    ∀ (inputs : List (ℚ × ℚ)) (s : TrackedPosition),
    s.breakeven_triggered = some true → s.type = t → s.stop_loss.isSome →
    List.Chain' (stepRel (favorableRel t)) (stopTrace self s inputs)
  | [], s, _, _, _ => by simp [stopTrace, List.scanl]
  | c :: cs, s, hb, ht, hs => by
    rw [stopTrace_cons]
    obtain ⟨hb', htype', hs', hrel⟩ := tsmStep_monotone self s c hb hs
    rw [ht] at hrel
    refine List.chain'_cons'.mpr ⟨?_, stopTrace_chain self t cs (tsmStep self s c) hb'
      (htype'.trans ht) hs'⟩
    intro y hy
    rw [stopTrace_head] at hy
    obtain rfl := Option.mem_some_iff.mp hy
    exact hrel

/-- C1: once an update returns reason BREAKEVEN and its stop is stored back,
every further store-back update (any prices, positive ATRs) moves the stored
stop only favorably: non-decreasing for a BUY position, non-increasing for a
SELL position, from the breakeven update onward. -/
theorem trailing_stop_monotone_after_breakeven (self : TrailingStopManager)
    (position : TrackedPosition) (cp atr : ℚ) (inputs : List (ℚ × ℚ))
    (_hatr : 0 < atr) (_hinputs : ∀ c ∈ inputs, 0 < c.2)
    (hreason : (TrailingStopManager.update_stop_loss self position cp atr).2.2
      = StopReason.BREAKEVEN) :
    (position.type = Side.BUY →
      List.Chain' (stepRel fun a b => a ≤ b)
        (stopTrace self (tsmStep self position (cp, atr)) inputs)) ∧
    (position.type = Side.SELL →
      List.Chain' (stepRel fun a b => b ≤ a)
        (stopTrace self (tsmStep self position (cp, atr)) inputs)) := by
  obtain ⟨hb, hs, htype⟩ := tsmStep_breakeven_state self position cp atr hreason
  exact ⟨fun hBUY => stopTrace_chain self Side.BUY inputs _ hb (htype.trans hBUY) hs,
    fun hSELL => stopTrace_chain self Side.SELL inputs _ hb (htype.trans hSELL) hs⟩

/-- Witness for C1: the spec scenario's breakeven tick followed by the 1.2540
and 1.2535 ticks with ATR 0.0010. -/
theorem trailing_stop_monotone_after_breakeven_witness :
    List.Chain' (stepRel fun a b => a ≤ b)
      (stopTrace TrailingStopStrategy.option_a_pure_trailing scenarioAfterBreakeven
        [(1254 / 1000, 1 / 1000), (12535 / 10000, 1 / 1000)]) := by
  have h := trailing_stop_monotone_after_breakeven
    TrailingStopStrategy.option_a_pure_trailing scenarioTracked (1252 / 1000) (1 / 1000)
    [(1254 / 1000, 1 / 1000), (12535 / 10000, 1 / 1000)]
    (by norm_num) (by intro c hc; fin_cases hc <;> norm_num)
    (by norm_num [scenarioTracked, scenarioPosition,
      TrailingStopManager.initialize_position_tracking,
      TrailingStopManager.calculate_initial_stop, TrailingStopStrategy.option_a_pure_trailing,
      TrailingStopManager.update_stop_loss, TrailingStopManager.update_price_tracking,
      TrailingStopManager.should_move_to_breakeven, TrailingStopManager.calculate_breakeven_stop,
      TrailingStopManager.is_profitable, TrailingStopManager.is_better_stop,
      TrailingStopManager.calculate_trailing_stop, TrailingStopManager.log_stop_adjustment,
      max_def, min_def, abs])
  exact h.1 rfl

/-- `ewmFrom` of a nonnegative seed over nonnegative inputs stays nonnegative
whenever `0 ≤ α ≤ 1`. -/
theorem ewmFrom_nonneg (alpha : ℚ) (h0 : 0 ≤ alpha) (h1 : alpha ≤ 1) :
    ∀ (xs : List ℚ) (a : ℚ), 0 ≤ a → (∀ x ∈ xs, 0 ≤ x) →
    ∀ y ∈ ewmFrom alpha a xs, 0 ≤ y
  | [], a, ha, _, y, hy => by
    simp only [ewmFrom, List.mem_singleton] at hy
    exact hy ▸ ha
  | x :: xs, a, ha, hxs, y, hy => by
    simp only [ewmFrom, List.mem_cons] at hy
    rcases hy with rfl | hy
    · exact ha
    · refine ewmFrom_nonneg alpha h0 h1 xs ((1 - alpha) * a + alpha * x) ?_
        (fun z hz => hxs z (List.mem_cons_of_mem x hz)) y hy
      have hx : 0 ≤ x := hxs x (List.mem_cons_self x xs)
      have : 0 ≤ (1 - alpha) * a := mul_nonneg (by linarith) ha
      have : 0 ≤ alpha * x := mul_nonneg h0 hx
      linarith

/-- `ewmAlpha` of a nonnegative series is nonnegative whenever `0 ≤ α ≤ 1`. -/
theorem ewmAlpha_nonneg (alpha : ℚ) (h0 : 0 ≤ alpha) (h1 : alpha ≤ 1)
    (xs : List ℚ) (hxs : ∀ x ∈ xs, 0 ≤ x) : ∀ y ∈ ewmAlpha alpha xs, 0 ≤ y := by
  cases xs with
  | nil => simp [ewmAlpha]
  | cons x xs =>
    exact ewmFrom_nonneg alpha h0 h1 xs x (hxs x (List.mem_cons_self x xs))
      (fun z hz => hxs z (List.mem_cons_of_mem x hz))

/-- `ewmFrom` of seed 0 over an all-zero series is all-zero. -/
theorem ewmFrom_zero (alpha : ℚ) :
    ∀ (xs : List ℚ), (∀ x ∈ xs, x = 0) → ∀ y ∈ ewmFrom alpha 0 xs, y = 0
  | [], _, y, hy => by simpa [ewmFrom] using hy
  | x :: xs, hxs, y, hy => by
    have hx : x = 0 := hxs x (List.mem_cons_self x xs)
    simp only [ewmFrom, List.mem_cons] at hy
    rcases hy with rfl | hy
    · rfl
    · have : (1 - alpha) * 0 + alpha * x = 0 := by rw [hx]; ring
      rw [this] at hy
      exact ewmFrom_zero alpha xs (fun z hz => hxs z (List.mem_cons_of_mem x hz)) y hy

/-- `ewmAlpha` of an all-zero series is all-zero. -/
theorem ewmAlpha_zero (alpha : ℚ) (xs : List ℚ) (hxs : ∀ x ∈ xs, x = 0) :
    ∀ y ∈ ewmAlpha alpha xs, y = 0 := by
  cases xs with
  | nil => simp [ewmAlpha]
  | cons x xs =>
    intro y hy
    have hx : x = 0 := hxs x (List.mem_cons_self x xs)
    rw [ewmAlpha] at hy
    rw [hx] at hy
    exact ewmFrom_zero alpha xs (fun z hz => hxs z (List.mem_cons_of_mem x hz)) y hy

/-- Pointwise lookup through `zipWith`. -/
theorem get?_zipWith {α β γ : Type} (f : α → β → γ) :
    ∀ (as : List α) (bs : List β) (i : ℕ) (a : α) (b : β),
    as.get? i = some a → bs.get? i = some b →
    (List.zipWith f as bs).get? i = some (f a b)
  | [], _, _, _, _, ha, _ => by simp at ha
  | _ :: _, [], _, _, _, _, hb => by simp at hb
  | a' :: as, b' :: bs, 0, a, b, ha, hb => by
    simp_all
  | a' :: as, b' :: bs, i + 1, a, b, ha, hb => by
    simpa using get?_zipWith f as bs i a b (by simpa using ha) (by simpa using hb)

/-- Every element of `zipWith f as bs` is `f a b` for members `a`, `b`. -/
theorem mem_zipWith {α β γ : Type} (f : α → β → γ) :
    ∀ (as : List α) (bs : List β) (c : γ), c ∈ List.zipWith f as bs →
    ∃ a ∈ as, ∃ b ∈ bs, c = f a b
  | [], _, c, hc => by simp at hc
  | _ :: _, [], c, hc => by simp at hc
  | a :: as, b :: bs, c, hc => by
    simp only [List.zipWith_cons_cons, List.mem_cons] at hc
    rcases hc with rfl | hc
    · exact ⟨a, List.mem_cons_self a as, b, List.mem_cons_self b bs, rfl⟩
    · obtain ⟨a', ha', b', hb', rfl⟩ := mem_zipWith f as bs c hc
      exact ⟨a', List.mem_cons_of_mem a ha', b', List.mem_cons_of_mem b hb', rfl⟩

/-- `zipWith` congruence driven by the second list's members. -/
theorem zipWith_congr_right {α β γ : Type} (f g : α → β → γ) :
    ∀ (as : List α) (bs : List β), (∀ b ∈ bs, ∀ a, f a b = g a b) →
    List.zipWith f as bs = List.zipWith g as bs
  | [], _, _ => by simp
  | _ :: _, [], _ => by simp
  | a :: as, b :: bs, h => by
    simp only [List.zipWith_cons_cons]
    exact congrArg₂ _ (h b (List.mem_cons_self b bs) a)
      (zipWith_congr_right f g as bs fun b' hb' => h b' (List.mem_cons_of_mem b hb'))

/-- Pointwise RSI value is within `[0, 100]` for nonnegative averages. -/
theorem rsiPoint_mem_range (g l : ℚ) (hg : 0 ≤ g) (hl : 0 ≤ l) :
    0 ≤ rsiPoint g l ∧ rsiPoint g l ≤ 100 := by
  unfold rsiPoint
  split
  · split <;> norm_num
  · next hlz =>
    have hl' : 0 < l := lt_of_le_of_ne hl (Ne.symm hlz)
    have hrs : 0 ≤ g / l := div_nonneg hg hl'.le
    have hd : (0 : ℚ) < 1 + g / l := by linarith
    have hle : (100 : ℚ) / (1 + g / l) ≤ 100 := div_le_self (by norm_num) (by linarith)
    have hpos : (0 : ℚ) < 100 / (1 + g / l) := div_pos (by norm_num) hd
    constructor <;> linarith

/-- Pointwise RSI value equals 100 exactly when the loss average is zero and
the gain average positive. -/
theorem rsiPoint_eq_100_iff (g l : ℚ) (hg : 0 ≤ g) (hl : 0 ≤ l) :
    rsiPoint g l = 100 ↔ l = 0 ∧ 0 < g := by
  unfold rsiPoint
  split
  · next hlz =>
    split
    · next hgz =>
      subst hgz
      constructor
      · intro h; norm_num at h
      · intro h; exact absurd h.2 (by norm_num)
    · next hgz =>
      have : 0 < g := lt_of_le_of_ne hg (Ne.symm hgz)
      exact ⟨fun _ => ⟨hlz, this⟩, fun _ => rfl⟩
  · next hlz =>
    have hl' : 0 < l := lt_of_le_of_ne hl (Ne.symm hlz)
    have hd : (0 : ℚ) < 1 + g / l := by
      have : 0 ≤ g / l := div_nonneg hg hl'.le
      linarith
    constructor
    · intro h
      have h0 : (100 : ℚ) / (1 + g / l) = 0 := sub_eq_self.mp h
      exact absurd h0 (ne_of_gt (div_pos (by norm_num) hd))
    · intro h
      exact absurd h.1 hlz

/-- The smoothed gain series consists of nonnegative values. -/
theorem wilder_gains_nonneg (period : ℕ) (hper : period ≠ 0) (prices : List ℚ) :
    ∀ y ∈ wilderSmooth period (gainsOf prices), 0 ≤ y := by
  have hp1 : (1 : ℚ) ≤ (period : ℚ) := by exact_mod_cast Nat.one_le_iff_ne_zero.mpr hper
  refine ewmAlpha_nonneg _ (by positivity) ?_ _ ?_
  · rw [div_le_one (by linarith)]; linarith
  · intro x hx
    simp only [gainsOf, List.mem_map] at hx
    obtain ⟨d, _, rfl⟩ := hx
    split <;> simp_all [le_of_lt]

/-- The smoothed loss series consists of nonnegative values. -/
theorem wilder_losses_nonneg (period : ℕ) (hper : period ≠ 0) (prices : List ℚ) :
    ∀ y ∈ wilderSmooth period (lossesOf prices), 0 ≤ y := by
  have hp1 : (1 : ℚ) ≤ (period : ℚ) := by exact_mod_cast Nat.one_le_iff_ne_zero.mpr hper
  refine ewmAlpha_nonneg _ (by positivity) ?_ _ ?_
  · rw [div_le_one (by linarith)]; linarith
  · intro x hx
    simp only [lossesOf, List.mem_map] at hx
    obtain ⟨d, _, rfl⟩ := hx
    split <;> simp_all [le_of_lt]

/-- On a constant price series every delta is zero. -/
theorem diffs_of_constant (prices : List ℚ) (c : ℚ) (hc : ∀ x ∈ prices, x = c) :
    ∀ d ∈ diffs prices, d = 0 := by
  intro d hd
  simp only [diffs, List.mem_map] at hd
  obtain ⟨pr, hpr, rfl⟩ := hd
  obtain ⟨h1, h2⟩ := List.of_mem_zip hpr
  rw [hc pr.1 h1, hc pr.2 (List.mem_of_mem_tail h2)]
  ring

/-- C3: for every series the oscillators RSI calculator accepts, every defined
output value lies in [0, 100]; a defined value after the first position equals
100 exactly when its smoothed average loss is zero and its smoothed average
gain positive; and on a perfectly flat series every defined value is 50. -/
theorem rsi_range_and_edge_values (period : ℕ) (prices : List ℚ)
    (out : List (Option ℚ))
    (hout : oscillators_RSICalculator_calculate period prices = some out) :
    (∀ cell ∈ out, ∀ v, cell = some v → 0 ≤ v ∧ v ≤ 100) ∧
    (∀ i g l v, (wilderSmooth period (gainsOf prices)).get? i = some g →
      (wilderSmooth period (lossesOf prices)).get? i = some l →
      out.get? (i + 1) = some (some v) → (v = 100 ↔ l = 0 ∧ 0 < g)) ∧
    (∀ c : ℚ, (∀ x ∈ prices, x = c) →
      ∀ cell ∈ out, ∀ v, cell = some v → v = 50) := by
  unfold oscillators_RSICalculator_calculate at hout
  split at hout
  · exact absurd hout (by simp)
  split at hout
  · exact absurd hout (by simp)
  next hper =>
  dsimp only at hout
  split at hout
  · next hflat =>
    obtain rfl : List.replicate prices.length (some (50 : ℚ)) = out :=
      Option.some.inj hout
    have hval : ∀ cell ∈ List.replicate prices.length (some (50 : ℚ)),
        cell = some 50 := fun cell hc => List.eq_of_mem_replicate hc
    refine ⟨?_, ?_, ?_⟩
    · intro cell hc v hv
      rw [hval cell hc] at hv
      obtain rfl := Option.some.inj hv
      norm_num
    · intro i g l v hg hl hv
      have hcell : some v ∈ List.replicate prices.length (some (50 : ℚ)) :=
        List.get?_mem hv
      have hv50 : v = 50 := Option.some.inj (List.eq_of_mem_replicate hcell)
      subst hv50
      rw [Bool.and_eq_true] at hflat
      have hl0 : l = 0 := by
        have := List.all_eq_true.mp hflat.2 l (List.get?_mem hl)
        simpa using this
      have hg0 : g = 0 := by
        have := List.all_eq_true.mp hflat.1 g (List.get?_mem hg)
        simpa using this
      subst hl0 hg0
      constructor
      · intro h; norm_num at h
      · intro h; exact absurd h.2 (by norm_num)
    · intro c _ cell hc v hv
      rw [hval cell hc] at hv
      exact (Option.some.inj hv).symm
  · next hflat =>
    obtain rfl : (none :: List.zipWith (fun g l => some (rsiPoint g l))
        (wilderSmooth period (gainsOf prices))
        (wilderSmooth period (lossesOf prices))) = out := Option.some.inj hout
    have hgn := wilder_gains_nonneg period hper prices
    have hln := wilder_losses_nonneg period hper prices
    refine ⟨?_, ?_, ?_⟩
    · intro cell hc v hv
      rcases List.mem_cons.mp hc with rfl | hc
      · exact absurd hv (by simp)
      · obtain ⟨g, hg, l, hl, rfl⟩ := mem_zipWith _ _ _ cell hc
        obtain rfl := Option.some.inj hv
        exact rsiPoint_mem_range g l (hgn g hg) (hln l hl)
    · intro i g l v hg hl hv
      rw [List.get?_cons_succ, get?_zipWith _ _ _ i g l hg hl] at hv
      have hvr : rsiPoint g l = v := Option.some.inj (Option.some.inj hv)
      subst hvr
      exact rsiPoint_eq_100_iff g l (hgn g (List.get?_mem hg)) (hln l (List.get?_mem hl))
    · intro c hc cell hcell v hv
      exfalso
      have hdz := diffs_of_constant prices c hc
      have hgz : ∀ x ∈ gainsOf prices, x = 0 := by
        intro x hx
        simp only [gainsOf, List.mem_map] at hx
        obtain ⟨d, hd, rfl⟩ := hx
        rw [hdz d hd]
        norm_num
      have hlz : ∀ x ∈ lossesOf prices, x = 0 := by
        intro x hx
        simp only [lossesOf, List.mem_map] at hx
        obtain ⟨d, hd, rfl⟩ := hx
        rw [hdz d hd]
        norm_num
      have hag : ∀ y ∈ wilderSmooth period (gainsOf prices), y = 0 :=
        ewmAlpha_zero _ _ hgz
      have hal : ∀ y ∈ wilderSmooth period (lossesOf prices), y = 0 :=
        ewmAlpha_zero _ _ hlz
      apply hflat
      rw [Bool.and_eq_true]
      exact ⟨List.all_eq_true.mpr fun y hy => by simp [hag y hy],
        List.all_eq_true.mpr fun y hy => by simp [hal y hy]⟩

/-- Witness for C3: period 2 on the series [1, 2, 1], whose output is
[NaN, 100, 50]; at index 1 the smoothed loss is 0 and the smoothed gain 1. -/
theorem rsi_range_and_edge_values_witness :
    ((0 : ℚ) ≤ 100 ∧ (100 : ℚ) ≤ 100) ∧
    ((100 : ℚ) = 100 ↔ (0 : ℚ) = 0 ∧ (0 : ℚ) < 1) := by
  have hout : oscillators_RSICalculator_calculate 2 [1, 2, 1]
      = some [none, some 100, some 50] := by
    norm_num [oscillators_RSICalculator_calculate, wilderSmooth, ewmAlpha, ewmFrom,
      gainsOf, lossesOf, diffs, rsiPoint]
  have h := rsi_range_and_edge_values 2 [1, 2, 1] [none, some 100, some 50] hout
  refine ⟨h.1 (some 100) (by simp) 100 rfl, ?_⟩
  refine h.2.1 0 1 0 100 ?_ ?_ rfl
  · norm_num [wilderSmooth, ewmAlpha, ewmFrom, gainsOf, lossesOf, diffs]
  · norm_num [wilderSmooth, ewmAlpha, ewmFrom, gainsOf, lossesOf, diffs]

/-- `pyRoundInt` returns the floor, or the floor plus one and then only when
the fractional part is at least one half. -/
theorem pyRoundInt_cases (y : ℚ) :
    pyRoundInt y = ⌊y⌋ ∨ (pyRoundInt y = ⌊y⌋ + 1 ∧ 1 / 2 ≤ y - ⌊y⌋) := by
  unfold pyRoundInt
  dsimp only
  split_ifs with h1 h2 h3
  · exact Or.inl rfl
  · exact Or.inr ⟨rfl, not_lt.mp h1⟩
  · exact Or.inl rfl
  · exact Or.inr ⟨rfl, not_lt.mp h1⟩

/-- Rounding to two decimals keeps a value between bounds that are themselves
hundredths. -/
theorem pyRound2_bounds (x : ℚ) (a b : ℤ) (h1 : (a : ℚ) / 100 ≤ x)
    (h2 : x ≤ (b : ℚ) / 100) :
    (a : ℚ) / 100 ≤ pyRound2 x ∧ pyRound2 x ≤ (b : ℚ) / 100 := by
  have hay : (a : ℚ) ≤ 100 * x := by
    have := (div_le_iff (show (0 : ℚ) < 100 by norm_num)).mp h1
    linarith
  have hyb : 100 * x ≤ (b : ℚ) := by
    have := (le_div_iff (show (0 : ℚ) < 100 by norm_num)).mp h2
    linarith
  have hfa : a ≤ ⌊100 * x⌋ := Int.le_floor.mpr hay
  have hfaq : (a : ℚ) ≤ (⌊100 * x⌋ : ℚ) := by exact_mod_cast hfa
  have hfloor_le : ((⌊100 * x⌋ : ℤ) : ℚ) ≤ 100 * x := Int.floor_le _
  rcases pyRoundInt_cases (100 * x) with hcase | ⟨hcase, hr⟩
  · unfold pyRound2
    rw [hcase]
    constructor
    · linarith
    · have hnb : ((⌊100 * x⌋ : ℤ) : ℚ) ≤ (b : ℚ) := le_trans hfloor_le hyb
      linarith
  · unfold pyRound2
    rw [hcase]
    push_cast
    constructor
    · linarith
    · have hlt : ((⌊100 * x⌋ : ℤ) : ℚ) < (b : ℚ) := by linarith
      have hzlt : ⌊100 * x⌋ < b := by exact_mod_cast hlt
      have hb1 : ((⌊100 * x⌋ : ℤ) : ℚ) + 1 ≤ (b : ℚ) := by exact_mod_cast hzlt
      linarith

/-- C4 (amended): for positive balance, risk percent and contract size, and a
sane lot grid (min_lot ≤ max_lot, both whole hundredths, min_lot not above the
0.1-lot fallback), the returned size always lies in [min_lot, max_lot]; and
for a missing or non-positive stop distance the fixed fallback
`min(0.1, max_lot)` is returned. -/
theorem calculate_position_size_within_lots
    (self_default balance contract_size min_lot max_lot : ℚ)
    (default_risk_per_trade stop_distance : Option ℚ) (a b : ℤ)
    (_hbal : 0 < balance) (_hrisk : 0 < default_risk_per_trade.getD self_default)
    (_hcon : 0 < contract_size) (hml : min_lot ≤ max_lot) (hm01 : min_lot ≤ 1 / 10)
    (ha : min_lot = (a : ℚ) / 100) (hb : max_lot = (b : ℚ) / 100) :
    (min_lot ≤ RiskManager_calculate_position_size self_default balance
        default_risk_per_trade stop_distance contract_size min_lot max_lot ∧
      RiskManager_calculate_position_size self_default balance
        default_risk_per_trade stop_distance contract_size min_lot max_lot ≤ max_lot) ∧
    (∀ d, stop_distance = some d → d ≤ 0 →
      RiskManager_calculate_position_size self_default balance default_risk_per_trade
        stop_distance contract_size min_lot max_lot = min (1 / 10) max_lot) ∧
    (stop_distance = none →
      RiskManager_calculate_position_size self_default balance default_risk_per_trade
        stop_distance contract_size min_lot max_lot = min (1 / 10) max_lot) := by
  have hfb : min_lot ≤ min (1 / 10) max_lot ∧ min (1 / 10) max_lot ≤ max_lot :=
    ⟨le_min hm01 hml, min_le_right _ _⟩
  unfold RiskManager_calculate_position_size
  cases stop_distance with
  | none =>
    exact ⟨hfb, fun d hd => absurd hd (by simp), fun _ => rfl⟩
  | some d =>
    dsimp only
    split_ifs with hd
    · exact ⟨hfb, fun d' _ _ => rfl, fun h => absurd h (by simp)⟩
    · have hcl : (a : ℚ) / 100 ≤ max min_lot (min (balance *
          (default_risk_per_trade.getD self_default / 100) / (d * contract_size))
          max_lot) := by
        rw [← ha]; exact le_max_left _ _
      have hcu : max min_lot (min (balance *
          (default_risk_per_trade.getD self_default / 100) / (d * contract_size))
          max_lot) ≤ (b : ℚ) / 100 := by
        rw [← hb]; exact max_le hml (min_le_right _ _)
      have hbd := pyRound2_bounds _ a b hcl hcu
      refine ⟨⟨?_, ?_⟩, fun d' hd' hneg => ?_, fun h => absurd h (by simp)⟩
      · calc min_lot = (a : ℚ) / 100 := ha
          _ ≤ _ := hbd.1
      · calc pyRound2 (max min_lot (min (balance *
              (default_risk_per_trade.getD self_default / 100) / (d * contract_size))
              max_lot)) ≤ (b : ℚ) / 100 := hbd.2
          _ = max_lot := hb.symm
      · obtain rfl : d = d' := Option.some.inj hd'
        exact absurd hneg hd

/-- Witness for C4 (amended): balance 10000, 2% risk, stop 0.002, contract
100000, lot grid [0.01, 100]; the computed size 1.0 lies in the lot range. -/
theorem calculate_position_size_within_lots_witness :
    (1 : ℚ) / 100 ≤ RiskManager_calculate_position_size 2 10000 none (some (1 / 500))
        100000 (1 / 100) 100 ∧
    RiskManager_calculate_position_size 2 10000 none (some (1 / 500))
        100000 (1 / 100) 100 ≤ 100 :=
  (calculate_position_size_within_lots 2 10000 100000 (1 / 100) 100 none
    (some (1 / 500)) 1 10000 (by norm_num) (by norm_num) (by norm_num) (by norm_num)
    (by norm_num) (by norm_num) (by norm_num)).1

/-- C6: with balance and symbol metadata available, `can_open_new_position`
refuses exactly when current portfolio risk percent plus the proposed
position's risk percent strictly exceeds the cap (ties allowed), always
reports the current portfolio risk percent it computed, and labels the
decision with the corresponding human-readable reason.  A zero balance would
raise `ZeroDivisionError` in the source, hence the positivity hypothesis. -/
theorem can_open_new_position_iff (env : Mt5Env) (symbol : String)
    (entry_price stop_loss position_size max_total_portfolio_risk b : ℚ)
    (info : SymbolInfo) (hb : env.account_balance = some b) (_hbpos : 0 < b)
    (hinfo : env.symbol_info symbol = some info) :
    ((RiskManager_can_open_new_position env symbol entry_price stop_loss position_size
        max_total_portfolio_risk).can_open = false ↔
      max_total_portfolio_risk <
        (RiskManager_can_open_new_position env symbol entry_price stop_loss
          position_size max_total_portfolio_risk).current_risk_percent +
        (RiskManager_can_open_new_position env symbol entry_price stop_loss
          position_size max_total_portfolio_risk).new_position_risk_percent) ∧
    ((RiskManager_can_open_new_position env symbol entry_price stop_loss position_size
        max_total_portfolio_risk).current_risk_percent
      = (RiskManager_calculate_current_portfolio_risk env).2) ∧
    ((RiskManager_can_open_new_position env symbol entry_price stop_loss position_size
        max_total_portfolio_risk).can_open = true →
      (RiskManager_can_open_new_position env symbol entry_price stop_loss position_size
        max_total_portfolio_risk).reason = "Within risk limits") ∧
    ((RiskManager_can_open_new_position env symbol entry_price stop_loss position_size
        max_total_portfolio_risk).can_open = false →
      (RiskManager_can_open_new_position env symbol entry_price stop_loss position_size
        max_total_portfolio_risk).reason = "Portfolio risk limit exceeded") := by
  have hpip : ∃ v, RiskManager_get_pip_value env symbol = some v := by
    unfold RiskManager_get_pip_value
    rw [hinfo]
    split_ifs <;> exact ⟨_, rfl⟩
  obtain ⟨v, hv⟩ := hpip
  unfold RiskManager_can_open_new_position RiskManager_get_account_balance
  rw [hb, hv, hinfo]
  dsimp only
  split_ifs with hgt
  · exact ⟨iff_of_true rfl hgt, rfl, fun h => absurd h (by simp), fun _ => rfl⟩
  · exact ⟨iff_of_false (by simp) hgt, rfl, fun _ => rfl, fun h => absurd h (by simp)⟩

/-- Witness for C6 at the sample environment, a EURUSD proposal risking 2%
against a 5% cap. -/
theorem can_open_new_position_iff_witness :
    (RiskManager_can_open_new_position sampleEnv "EURUSD" (5 / 4) (156 / 125)
        (1 / 10) 5).current_risk_percent
      = (RiskManager_calculate_current_portfolio_risk sampleEnv).2 :=
  (can_open_new_position_iff sampleEnv "EURUSD" (5 / 4) (156 / 125) (1 / 10) 5
    10000 ⟨100000⟩ rfl (by norm_num) (by simp [sampleEnv])).2.1

/-- Length of `ewmFrom`. -/
theorem ewmFrom_length (alpha a : ℚ) :
    ∀ xs : List ℚ, (ewmFrom alpha a xs).length = xs.length + 1
  | [] => rfl
  | x :: xs => by
    simp only [ewmFrom, List.length_cons, ewmFrom_length alpha _ xs]

/-- `ewmAlpha` preserves length. -/
theorem ewmAlpha_length (alpha : ℚ) (xs : List ℚ) :
    (ewmAlpha alpha xs).length = xs.length := by
  cases xs with
  | nil => rfl
  | cons x xs => simp [ewmAlpha, ewmFrom_length]

/-- A price series has one fewer delta than elements. -/
theorem diffs_length (prices : List ℚ) :
    (diffs prices).length = prices.length - 1 := by
  simp only [diffs, List.length_map, List.length_zip, List.length_tail]
  omega

/-- C10 (amended): on every series of length at least the period *and at least
two*, whose Wilder-smoothed average losses are all strictly positive, the
modular and legacy RSI calculators return identical series. -/
theorem rsi_variants_agree (period : ℕ) (prices : List ℚ)
    (hlen : period ≤ prices.length) (h2 : 2 ≤ prices.length)
    (hpos : ∀ l ∈ wilderSmooth period (lossesOf prices), 0 < l) :
    oscillators_RSICalculator_calculate period prices
      = indicators_RSICalculator_calculate period prices := by
  unfold oscillators_RSICalculator_calculate indicators_RSICalculator_calculate
  by_cases hper : period = 0
  · rw [if_neg (by omega : ¬prices.length < period), if_pos hper, if_pos hper]
  · rw [if_neg (not_lt.mpr hlen), if_neg hper, if_neg hper]
    dsimp only
    have hne : wilderSmooth period (lossesOf prices) ≠ [] := by
      have hl : (wilderSmooth period (lossesOf prices)).length = prices.length - 1 := by
        rw [wilderSmooth, ewmAlpha_length, lossesOf, List.length_map, diffs_length]
      intro hnil
      rw [hnil] at hl
      simp at hl
      omega
    obtain ⟨l0, hl0⟩ := List.exists_mem_of_ne_nil _ hne
    have hall : (wilderSmooth period (lossesOf prices)).all
        (fun x => decide (x = 0)) = false := by
      rw [Bool.eq_false_iff]
      intro htrue
      have hz := List.all_eq_true.mp htrue l0 hl0
      simp only [decide_eq_true_eq] at hz
      exact absurd hz (ne_of_gt (hpos l0 hl0))
    rw [hall, Bool.and_false]
    simp only [Bool.false_eq_true, if_false]
    cases hp : prices with
    | nil => subst hp; simp at h2
    | cons p ps =>
      subst hp
      dsimp only
      refine congrArg (fun t => some (none :: t)) (zipWith_congr_right _ _ _ _ ?_)
      intro l hl g
      have hlne : l ≠ 0 := ne_of_gt (hpos l hl)
      simp [rsiPoint, hlne]

/-- Witness for C10 (amended): period 2 on the falling series [2, 1, 0.5],
whose smoothed losses 1 and 3/4 are positive; both calculators agree. -/
theorem rsi_variants_agree_witness :
    oscillators_RSICalculator_calculate 2 [2, 1, 1 / 2]
      = indicators_RSICalculator_calculate 2 [2, 1, 1 / 2] := by
  have hlist : wilderSmooth 2 (lossesOf [2, 1, 1 / 2]) = [1, 3 / 4] := by
    norm_num [wilderSmooth, ewmAlpha, ewmFrom, lossesOf, diffs]
  refine rsi_variants_agree 2 [2, 1, 1 / 2] (by norm_num) (by norm_num) ?_
  intro l hl
  rw [hlist] at hl
  fin_cases hl <;> norm_num
